import Mathlib

/-!
Verification of the basketballstats team-management application.

This file gives a shallow embedding of the application's aggregation and
persistence logic and proves the specified properties about it:

* the averages engine of the Averages page (`calculateAverages`,
  `getPlayerStats`);
* the game-result derivation of the game form (`onSubmit` in
  `GameFormDialog.tsx`);
* the upsert-by-lookup write paths for attendance (`saveAttendance`) and
  per-game statistics (`PlayerStatsForm.loadData` / `saveAllStats`);
* the cascading player deletion (`deletePlayer`).

Modelling conventions: nullable integer counts become `Option Nat` and are
read through `Option.getD 0`, mirroring the source's `x || 0`; JavaScript
objects keyed by strings become association lists with JavaScript's key
semantics (assignment to an existing key updates in place, a new key is
appended, `Object.values` returns values in key-insertion order); the remote
store becomes lists of rows with filter/update/insert operations; division
and one-decimal rounding are modelled in exact rational arithmetic.
-/

namespace BasketballStats

/-- Player record as consumed by the aggregation code (`id` and `name`). -/
structure Player where
  id : String
  name : String
deriving DecidableEq, Repr

/-- Statistic record: five nullable non-negative counts plus references.
The source reads counts as `stat.points || 0`, so absent values mean zero. -/
structure Stat where
  player_id : String
  event_id : String
  points : Option Nat
  rebounds : Option Nat
  assists : Option Nat
  steals : Option Nat
  blocks : Option Nat
deriving DecidableEq, Repr

/-- Event record as consumed by the Averages page.  The page's load query
already restricts events to `type = 'game'`, so the collection handed to
`calculateAverages` consists of game-type events only and the record needs
no type field here. -/
structure Event where
  id : String
  title : String
  date : String
deriving DecidableEq, Repr

/-- Game result values persisted in `events.result`. -/
inductive GameResult where
  | win
  | loss
  | draw
deriving DecidableEq, Repr

/-- Result derivation from `GameFormDialog.onSubmit`: `null` unless both
scores are set, otherwise compare (`win` / `loss` / `draw`). -/
def deriveGameResult (teamScore opponentScore : Option Nat) : Option GameResult :=
  match teamScore, opponentScore with
  | some t, some o =>
      if t > o then some GameResult.win
      else if t < o then some GameResult.loss
      else some GameResult.draw
  | _, _ => none

theorem deriveGameResult_of_win (t o : Nat) (h : o < t) :
    deriveGameResult (some t) (some o) = some GameResult.win := by
  simp [deriveGameResult, h]

theorem deriveGameResult_of_loss (t o : Nat) (h : t < o) :
    deriveGameResult (some t) (some o) = some GameResult.loss := by
  simp [deriveGameResult, h, Nat.lt_asymm h]

theorem deriveGameResult_of_draw (t o : Nat) (h : t = o) :
    deriveGameResult (some t) (some o) = some GameResult.draw := by
  simp [deriveGameResult, h]

/-- C3: `deriveGameResult` returns `none` when either score is absent,
`win` when the team score exceeds the opponent score, `loss` when it is
smaller, `draw` when they are equal; in particular on the four sample
inputs (10,7), (7,10), (5,5) and (10,none) it returns `win`, `loss`,
`draw` and `none` respectively. -/
theorem deriveGameResult_spec :
    (∀ o, deriveGameResult none o = none) ∧
    (∀ t, deriveGameResult t none = none) ∧
    (∀ t o : Nat, t > o → deriveGameResult (some t) (some o) = some GameResult.win) ∧
    (∀ t o : Nat, t < o → deriveGameResult (some t) (some o) = some GameResult.loss) ∧
    (∀ t o : Nat, t = o → deriveGameResult (some t) (some o) = some GameResult.draw) ∧
    deriveGameResult (some 10) (some 7) = some GameResult.win ∧
    deriveGameResult (some 7) (some 10) = some GameResult.loss ∧
    deriveGameResult (some 5) (some 5) = some GameResult.draw ∧
    deriveGameResult (some 10) none = none := by
  refine ⟨fun o => rfl, fun t => ?_, ?_, ?_, ?_, by decide, by decide, by decide, rfl⟩
  · cases t <;> rfl
  · exact fun t o h => deriveGameResult_of_win t o h
  · exact fun t o h => deriveGameResult_of_loss t o h
  · exact fun t o h => deriveGameResult_of_draw t o h

/-- Witness for C3: the conditional clauses applied at concrete inputs. -/
theorem deriveGameResult_spec_witness :
    deriveGameResult (some 3) (some 2) = some GameResult.win ∧
    deriveGameResult (some 2) (some 3) = some GameResult.loss ∧
    deriveGameResult (some 4) (some 4) = some GameResult.draw :=
  ⟨deriveGameResult_spec.2.2.1 3 2 (by decide),
   deriveGameResult_spec.2.2.2.1 2 3 (by decide),
   deriveGameResult_spec.2.2.2.2.1 4 4 rfl⟩

/-- Lookup in a JavaScript object modelled as an association list:
`obj[k]`, `none` when the key is absent. -/
def objGet {α : Type} (k : String) (m : List (String × α)) : Option α :=
  (m.find? (fun p => p.1 == k)).map Prod.snd

/-- Assignment `obj[k] = v` on a JavaScript object: an existing key keeps
its position and gets the new value, a fresh key is appended.  With this,
`Object.values` is `List.map Prod.snd` (key-insertion order). -/
def objInsert {α : Type} (k : String) (v : α) (m : List (String × α)) :
    List (String × α) :=
  if m.any (fun p => p.1 == k) then
    m.map (fun p => if p.1 == k then (k, v) else p)
  else m ++ [(k, v)]

/-- Per-player accumulator of `calculateAverages` (`playerStats[id]`). -/
structure PlayerAcc where
  name : String
  points : Nat
  rebounds : Nat
  assists : Nat
  steals : Nat
  blocks : Nat
  gamesPlayed : Nat
deriving DecidableEq, Repr

/-- Zeroed accumulator installed for every player before the pass. -/
def PlayerAcc.initFor (nm : String) : PlayerAcc :=
  { name := nm, points := 0, rebounds := 0, assists := 0, steals := 0
    blocks := 0, gamesPlayed := 0 }

/-- One statistic record folded into a player accumulator: add the five
counts (absent count = 0) and bump `gamesPlayed`. -/
def PlayerAcc.addStat (acc : PlayerAcc) (s : Stat) : PlayerAcc :=
  { acc with
    points := acc.points + s.points.getD 0
    rebounds := acc.rebounds + s.rebounds.getD 0
    assists := acc.assists + s.assists.getD 0
    steals := acc.steals + s.steals.getD 0
    blocks := acc.blocks + s.blocks.getD 0
    gamesPlayed := acc.gamesPlayed + 1 }

/-- Team accumulator of `calculateAverages` (`teamTotals`). -/
structure TeamTotals where
  points : Nat
  rebounds : Nat
  assists : Nat
  steals : Nat
  blocks : Nat
  gamesCount : Nat
deriving DecidableEq, Repr

/-- Initial `teamTotals`, all fields zero. -/
def TeamTotals.zero : TeamTotals :=
  { points := 0, rebounds := 0, assists := 0, steals := 0, blocks := 0
    gamesCount := 0 }

/-- One statistic record folded into the team totals. -/
def TeamTotals.addStat (t : TeamTotals) (s : Stat) : TeamTotals :=
  { points := t.points + s.points.getD 0
    rebounds := t.rebounds + s.rebounds.getD 0
    assists := t.assists + s.assists.getD 0
    steals := t.steals + s.steals.getD 0
    blocks := t.blocks + s.blocks.getD 0
    gamesCount := t.gamesCount + 1 }

/-- The `players.forEach` initialisation loop of `calculateAverages`:
install a zeroed accumulator under each player's id. -/
def initPlayerStats (players : List Player) : List (String × PlayerAcc) :=
  players.foldl (fun m p => objInsert p.id (PlayerAcc.initFor p.name) m) []

/-- The `stats.forEach` loop of `calculateAverages`: a record whose
`player_id` is a key of `playerStats` updates that accumulator and the team
totals; a record with an unknown `player_id` is skipped entirely (the team
totals sit inside the `if (playerStats[playerId])` guard in the source). -/
def accumStats (st : List (String × PlayerAcc) × TeamTotals) (stats : List Stat) :
    List (String × PlayerAcc) × TeamTotals :=
  stats.foldl
    (fun st s =>
      match objGet s.player_id st.1 with
      | some acc => (objInsert s.player_id (acc.addStat s) st.1, st.2.addStat s)
      | none => st)
    st

/-- One-decimal rounding `+(x).toFixed(1)`, modelled in exact rational
arithmetic as round-half-up at the tenths digit (all inputs here are
non-negative, so half-up and half-away-from-zero coincide). -/
def roundTenth (q : ℚ) : ℚ :=
  (Int.floor (q * 10 + 1 / 2) : ℚ) / 10

/-- Element of the per-player averages view. -/
structure PlayerAverage where
  name : String
  points : ℚ
  rebounds : ℚ
  assists : ℚ
  steals : ℚ
  blocks : ℚ
  gamesPlayed : Nat
deriving DecidableEq, Repr

/-- The team averages view. -/
structure TeamAverage where
  points : ℚ
  rebounds : ℚ
  assists : ℚ
  steals : ℚ
  blocks : ℚ
  games : Nat
deriving DecidableEq, Repr

/-- The per-player division step of `calculateAverages`: divide each total
by `gamesPlayed || 1` and round; `gamesPlayed` itself is kept as counted. -/
def playerAverageOf (acc : PlayerAcc) : PlayerAverage :=
  let gp : Nat := if acc.gamesPlayed = 0 then 1 else acc.gamesPlayed
  { name := acc.name
    points := roundTenth ((acc.points : ℚ) / gp)
    rebounds := roundTenth ((acc.rebounds : ℚ) / gp)
    assists := roundTenth ((acc.assists : ℚ) / gp)
    steals := roundTenth ((acc.steals : ℚ) / gp)
    blocks := roundTenth ((acc.blocks : ℚ) / gp)
    gamesPlayed := acc.gamesPlayed }

/-- `calculateAverages` from the Averages page: one pass building per-player
accumulators and team totals, then the division/rounding steps, the
`gamesPlayed > 0` filter, and the team division by `events.length || 1`. -/
def calculateAverages (players : List Player) (stats : List Stat)
    (events : List Event) : List PlayerAverage × TeamAverage :=
  let st := accumStats (initPlayerStats players, TeamTotals.zero) stats
  let averages := st.1.map (fun kv => playerAverageOf kv.2)
  let playersWithStats := averages.filter (fun a => decide (0 < a.gamesPlayed))
  let totalGames : Nat := if events.length = 0 then 1 else events.length
  (playersWithStats,
   { points := roundTenth ((st.2.points : ℚ) / totalGames)
     rebounds := roundTenth ((st.2.rebounds : ℚ) / totalGames)
     assists := roundTenth ((st.2.assists : ℚ) / totalGames)
     steals := roundTenth ((st.2.steals : ℚ) / totalGames)
     blocks := roundTenth ((st.2.blocks : ℚ) / totalGames)
     games := totalGames })

/-- One row of the per-player series produced by `getPlayerStats`. -/
structure GameLine where
  event : String
  date : String
  points : Nat
  rebounds : Nat
  assists : Nat
  steals : Nat
  blocks : Nat
deriving DecidableEq, Repr

/-- Projection of one statistic row in `getPlayerStats`: resolve the event
by id; `event?.title || 'Match inconnu'` and the truthiness test on the
date make an absent (or empty) title fall back to the sentinel and an
absent (or empty) date fall back to the empty string.  `fd` stands for the
locale date formatter applied to a non-empty date. -/
def statLine (fd : String → String) (events : List Event) (s : Stat) : GameLine :=
  match events.find? (fun e => e.id == s.event_id) with
  | some e =>
      { event := if e.title = "" then "Match inconnu" else e.title
        date := if e.date = "" then "" else fd e.date
        points := s.points.getD 0
        rebounds := s.rebounds.getD 0
        assists := s.assists.getD 0
        steals := s.steals.getD 0
        blocks := s.blocks.getD 0 }
  | none =>
      { event := "Match inconnu"
        date := ""
        points := s.points.getD 0
        rebounds := s.rebounds.getD 0
        assists := s.assists.getD 0
        steals := s.steals.getD 0
        blocks := s.blocks.getD 0 }

/-- `getPlayerStats` from the Averages page: filter the statistics to one
player, return early on the empty filter, otherwise project each row. -/
def getPlayerStats (fd : String → String) (statistics : List Stat)
    (events : List Event) (playerId : String) : List GameLine :=
  let ps := statistics.filter (fun s => s.player_id == playerId)
  if ps.length = 0 then []
  else ps.map (statLine fd events)

/-- Keys of a JavaScript object modelled as an association list. -/
def objKeys {α : Type} (m : List (String × α)) : List String :=
  m.map Prod.fst

theorem any_key_iff {α : Type} (k : String) (m : List (String × α)) :
    (m.any (fun p => p.1 == k)) = true ↔ k ∈ objKeys m := by
  simp [objKeys, List.any_eq_true, List.mem_map]

theorem objKeys_objInsert_of_mem {α : Type} {k' : String} (v : α)
    {m : List (String × α)} (hk : k' ∈ objKeys m) :
    objKeys (objInsert k' v m) = objKeys m := by
  rw [objInsert, if_pos ((any_key_iff k' m).mpr hk)]
  simp only [objKeys, List.map_map]
  refine List.map_congr_left ?_
  intro p _
  by_cases h : p.1 = k' <;> simp [h]

theorem objKeys_objInsert_of_not_mem {α : Type} {k' : String} (v : α)
    {m : List (String × α)} (hk : k' ∉ objKeys m) :
    objKeys (objInsert k' v m) = objKeys m ++ [k'] := by
  rw [objInsert, if_neg (fun h => hk ((any_key_iff k' m).mp h))]
  simp [objKeys]

theorem find?_map_update {α : Type} (k k' : String) (v : α)
    (m : List (String × α)) :
    List.find? (fun p => p.1 == k) (m.map (fun p => if p.1 == k' then (k', v) else p)) =
      if k = k' then (List.find? (fun p => p.1 == k') m).map (fun _ => (k', v))
      else List.find? (fun p => p.1 == k) m := by
  induction m with
  | nil => by_cases hk : k = k' <;> simp [hk]
  | cons p m ih =>
      simp only [List.map_cons]
      by_cases hk : k = k'
      · subst hk
        by_cases hp : p.1 = k
        · simp [List.find?_cons, hp, -List.find?_map]
        · have hb : (p.1 == k) = false := by simp [hp]
          simpa [List.find?_cons, hb, -List.find?_map] using ih
      · by_cases hp : p.1 = k'
        · have hpk : ¬ p.1 = k := fun h => hk (h.symm.trans hp)
          have hb : (p.1 == k') = true := by simp [hp]
          have hb2 : (k' == k) = false := by simp; exact fun h => hk h.symm
          have hb3 : (p.1 == k) = false := by simp [hpk]
          simpa [List.find?_cons, hb, hb2, hb3, hk, -List.find?_map] using ih
        · by_cases hpk : p.1 = k
          · have hb : (p.1 == k') = false := by simp [hp]
            have hb2 : (p.1 == k) = true := by simp [hpk]
            simp [List.find?_cons, hb, hb2, hk, -List.find?_map]
          · have hb : (p.1 == k') = false := by simp [hp]
            have hb2 : (p.1 == k) = false := by simp [hpk]
            simpa [List.find?_cons, hb, hb2, hk, -List.find?_map] using ih

theorem objGet_eq_none_of_not_mem {α : Type} {k : String}
    {m : List (String × α)} (hk : k ∉ objKeys m) :
    objGet k m = none := by
  have h1 : List.find? (fun p => p.1 == k) m = none := by
    rw [List.find?_eq_none]
    intro p hp
    simp only [beq_iff_eq]
    intro h
    exact hk (List.mem_map.mpr ⟨p, hp, h⟩)
  rw [objGet, h1]
  rfl

theorem objGet_objInsert {α : Type} (k k' : String) (v : α)
    (m : List (String × α)) :
    objGet k (objInsert k' v m) = if k = k' then some v else objGet k m := by
  by_cases hany : m.any (fun p => p.1 == k') = true
  · rw [objInsert, if_pos hany, objGet, find?_map_update]
    rcases (any_key_iff k' m).mp hany with hk'
    by_cases hk : k = k'
    · rw [if_pos hk, if_pos hk]
      have hs : (List.find? (fun p => p.1 == k') m).isSome = true := by
        rw [List.find?_isSome]
        rcases List.mem_map.mp hk' with ⟨p, hp, hpe⟩
        exact ⟨p, hp, by simp [hpe]⟩
      rcases Option.isSome_iff_exists.mp hs with ⟨p, hpe⟩
      rw [hpe]
      rfl
    · rw [if_neg hk, if_neg hk, objGet]
  · have hk' : k' ∉ objKeys m := fun h => hany ((any_key_iff k' m).mpr h)
    rw [objInsert, if_neg hany]
    by_cases hk : k = k'
    · subst hk
      have h1 : List.find? (fun p => p.1 == k) m = none := by
        rw [List.find?_eq_none]
        intro p hp
        simp only [beq_iff_eq]
        intro h
        exact hk' (List.mem_map.mpr ⟨p, hp, h⟩)
      rw [if_pos rfl, objGet, List.find?_append, h1]
      simp [Option.orElse, List.find?_cons]
    · have hk2 : ¬ k' = k := fun h => hk h.symm
      have h2 : List.find? (fun p => p.1 == k) [(k', v)] = none := by
        simp [List.find?_cons, hk2]
      rw [if_neg hk, objGet, objGet, List.find?_append, h2]
      cases hfind : List.find? (fun p => p.1 == k) m with
      | some p => simp [Option.orElse]
      | none => simp [Option.orElse]

theorem mem_objInsert {α : Type} {k' : String} {v' : α} (k : String) (v : α)
    (m : List (String × α)) (h : (k', v') ∈ objInsert k v m) :
    (k' = k ∧ v' = v) ∨ (k', v') ∈ m := by
  rw [objInsert] at h
  by_cases hany : m.any (fun p => p.1 == k) = true
  · rw [if_pos hany] at h
    rcases List.mem_map.mp h with ⟨p, hp, hpe⟩
    by_cases hpk : p.1 = k
    · rw [if_pos (by simp [hpk])] at hpe
      exact Or.inl ⟨congrArg Prod.fst hpe.symm, congrArg Prod.snd hpe.symm⟩
    · rw [if_neg (by simp [hpk])] at hpe
      exact Or.inr (hpe ▸ hp)
  · rw [if_neg hany] at h
    rcases List.mem_append.mp h with h | h
    · exact Or.inr h
    · have h2 := List.mem_singleton.mp h
      exact Or.inl ⟨congrArg Prod.fst h2, congrArg Prod.snd h2⟩

theorem objGet_isSome_iff {α : Type} (k : String) (m : List (String × α)) :
    (objGet k m).isSome = true ↔ k ∈ objKeys m := by
  constructor
  · intro h
    rcases Option.isSome_iff_exists.mp h with ⟨w, hw⟩
    rw [objGet] at hw
    rcases Option.map_eq_some'.mp hw with ⟨p, hp, hpe⟩
    have hpred := List.find?_some hp
    have hmem := List.mem_of_find?_eq_some hp
    exact List.mem_map.mpr ⟨p, hmem, by simpa using hpred⟩
  · intro h
    rcases List.mem_map.mp h with ⟨p, hp, hpe⟩
    have hs : (List.find? (fun q => q.1 == k) m).isSome = true := by
      rw [List.find?_isSome]
      exact ⟨p, hp, by simp [hpe]⟩
    rcases Option.isSome_iff_exists.mp hs with ⟨q, hq⟩
    rw [objGet, hq]
    rfl

theorem objKeys_nodup_objInsert {α : Type} (k : String) (v : α)
    (m : List (String × α)) (h : (objKeys m).Nodup) :
    (objKeys (objInsert k v m)).Nodup := by
  by_cases hk : k ∈ objKeys m
  · rw [objKeys_objInsert_of_mem v hk]
    exact h
  · rw [objKeys_objInsert_of_not_mem v hk]
    simp [List.nodup_append, h, hk]

theorem mem_objKeys_objInsert {α : Type} (k k' : String) (v : α)
    (m : List (String × α)) :
    k ∈ objKeys (objInsert k' v m) ↔ k = k' ∨ k ∈ objKeys m := by
  by_cases h : k' ∈ objKeys m
  · rw [objKeys_objInsert_of_mem v h]
    constructor
    · exact Or.inr
    · rintro (rfl | hm)
      · exact h
      · exact hm
  · rw [objKeys_objInsert_of_not_mem v h]
    simp [or_comm]

/-- Build loop over a JavaScript object: insert `key b ↦ val b` for each
element of a list in order (shape shared by the initialisation loops of
`calculateAverages` and `PlayerStatsForm.loadData`). -/
def objInsertAll {α β : Type} (key : β → String) (val : β → α)
    (l : List β) (m : List (String × α)) : List (String × α) :=
  l.foldl (fun m b => objInsert (key b) (val b) m) m

theorem initPlayerStats_eq_objInsertAll (players : List Player) :
    initPlayerStats players =
      objInsertAll (fun p => p.id) (fun p => PlayerAcc.initFor p.name) players [] := rfl

theorem mem_objKeys_objInsertAll {α β : Type} (key : β → String) (val : β → α)
    (l : List β) (m : List (String × α)) (k : String) :
    k ∈ objKeys (objInsertAll key val l m) ↔ k ∈ objKeys m ∨ ∃ b ∈ l, key b = k := by
  induction l generalizing m with
  | nil => simp [objInsertAll]
  | cons b l ih =>
      have hcons : objInsertAll key val (b :: l) m =
          objInsertAll key val l (objInsert (key b) (val b) m) := rfl
      rw [hcons, ih, mem_objKeys_objInsert]
      constructor
      · rintro ((rfl | hm) | ⟨b', hb', hkb'⟩)
        · exact Or.inr ⟨b, List.mem_cons_self b l, rfl⟩
        · exact Or.inl hm
        · exact Or.inr ⟨b', List.mem_cons_of_mem b hb', hkb'⟩
      · rintro (hm | ⟨b', hb', hkb'⟩)
        · exact Or.inl (Or.inr hm)
        · rcases List.mem_cons.mp hb' with rfl | hb''
          · exact Or.inl (Or.inl hkb'.symm)
          · exact Or.inr ⟨b', hb'', hkb'⟩

theorem mem_objInsertAll {α β : Type} {k : String} {v : α} (key : β → String)
    (val : β → α) (l : List β) (m : List (String × α))
    (h : (k, v) ∈ objInsertAll key val l m) :
    (k, v) ∈ m ∨ ∃ b ∈ l, key b = k ∧ v = val b := by
  induction l generalizing m with
  | nil => exact Or.inl h
  | cons b l ih =>
      have hcons : objInsertAll key val (b :: l) m =
          objInsertAll key val l (objInsert (key b) (val b) m) := rfl
      rw [hcons] at h
      rcases ih _ h with h' | ⟨b', hb', hkb', hvb'⟩
      · rcases mem_objInsert _ _ _ h' with ⟨hk, hv⟩ | h''
        · exact Or.inr ⟨b, List.mem_cons_self b l, hk.symm, hv⟩
        · exact Or.inl h''
      · exact Or.inr ⟨b', List.mem_cons_of_mem b hb', hkb', hvb'⟩

theorem objKeys_nodup_objInsertAll {α β : Type} (key : β → String)
    (val : β → α) (l : List β) (m : List (String × α))
    (h : (objKeys m).Nodup) :
    (objKeys (objInsertAll key val l m)).Nodup := by
  induction l generalizing m with
  | nil => exact h
  | cons b l ih => exact ih _ (objKeys_nodup_objInsert _ _ _ h)

theorem objInsertAll_eq_append {α β : Type} (key : β → String) (val : β → α)
    (l : List β) (m : List (String × α)) (hn : (l.map key).Nodup)
    (hd : ∀ b ∈ l, key b ∉ objKeys m) :
    objInsertAll key val l m = m ++ l.map (fun b => (key b, val b)) := by
  induction l generalizing m with
  | nil => simp [objInsertAll]
  | cons b l ih =>
      rw [List.map_cons] at hn
      have hb : key b ∉ objKeys m := hd b (List.mem_cons_self b l)
      have hstep : objInsert (key b) (val b) m = m ++ [(key b, val b)] := by
        rw [objInsert, if_neg (fun h => hb ((any_key_iff _ _).mp h))]
      have hcons : objInsertAll key val (b :: l) m =
          objInsertAll key val l (objInsert (key b) (val b) m) := rfl
      rw [hcons, hstep, ih]
      · simp
      · exact (List.nodup_cons.mp hn).2
      · intro b' hb'
        have h1 : key b' ∉ objKeys m := hd b' (List.mem_cons_of_mem b hb')
        have h2 : key b' ≠ key b := by
          intro h
          have hmem : key b ∈ List.map key l := by
            rw [← h]
            exact List.mem_map.mpr ⟨b', hb', rfl⟩
          exact (List.nodup_cons.mp hn).1 hmem
        intro hmem
        have hsplit : key b' ∈ objKeys m ∨ key b' ∈ objKeys [(key b, val b)] := by
          simp only [objKeys, List.map_append] at hmem
          exact List.mem_append.mp hmem
        rcases hsplit with h | h
        · exact h1 h
        · simp [objKeys] at h
          exact h2 h

/-- Sum of a field over a statistic collection (absent counts read as 0). -/
def sumPoints (l : List Stat) : Nat := (l.map (fun s => s.points.getD 0)).sum

/-- Sum of the rebounds field over a statistic collection. -/
def sumRebounds (l : List Stat) : Nat := (l.map (fun s => s.rebounds.getD 0)).sum

/-- Sum of the assists field over a statistic collection. -/
def sumAssists (l : List Stat) : Nat := (l.map (fun s => s.assists.getD 0)).sum

/-- Sum of the steals field over a statistic collection. -/
def sumSteals (l : List Stat) : Nat := (l.map (fun s => s.steals.getD 0)).sum

/-- Sum of the blocks field over a statistic collection. -/
def sumBlocks (l : List Stat) : Nat := (l.map (fun s => s.blocks.getD 0)).sum

theorem foldl_addStat_team (l : List Stat) (t : TeamTotals) :
    l.foldl TeamTotals.addStat t =
      { points := t.points + sumPoints l
        rebounds := t.rebounds + sumRebounds l
        assists := t.assists + sumAssists l
        steals := t.steals + sumSteals l
        blocks := t.blocks + sumBlocks l
        gamesCount := t.gamesCount + l.length } := by
  induction l generalizing t with
  | nil => simp [sumPoints, sumRebounds, sumAssists, sumSteals, sumBlocks]
  | cons s l ih =>
      rw [List.foldl_cons, ih]
      simp only [TeamTotals.addStat, sumPoints, sumRebounds, sumAssists, sumSteals,
        sumBlocks, List.map_cons, List.sum_cons, List.length_cons, TeamTotals.mk.injEq]
      omega

theorem foldl_addStat_player (l : List Stat) (a : PlayerAcc) :
    l.foldl PlayerAcc.addStat a =
      { name := a.name
        points := a.points + sumPoints l
        rebounds := a.rebounds + sumRebounds l
        assists := a.assists + sumAssists l
        steals := a.steals + sumSteals l
        blocks := a.blocks + sumBlocks l
        gamesPlayed := a.gamesPlayed + l.length } := by
  induction l generalizing a with
  | nil => simp [sumPoints, sumRebounds, sumAssists, sumSteals, sumBlocks]
  | cons s l ih =>
      rw [List.foldl_cons, ih]
      simp only [PlayerAcc.addStat, sumPoints, sumRebounds, sumAssists, sumSteals,
        sumBlocks, List.map_cons, List.sum_cons, List.length_cons, PlayerAcc.mk.injEq,
        true_and]
      omega

theorem objGet_map_form {α β : Type} (key : β → String) (g : β → α)
    (l : List β) (k : String) :
    objGet k (l.map (fun b => (key b, g b))) = (l.find? (fun b => key b == k)).map g := by
  induction l with
  | nil => rfl
  | cons b l ih =>
      rw [List.map_cons]
      by_cases hb : key b = k
      · have e1 : List.find? (fun p : String × α => p.1 == k)
            ((key b, g b) :: List.map (fun b => (key b, g b)) l) = some (key b, g b) :=
          List.find?_cons_of_pos _ (by simp [hb])
        have e2 : List.find? (fun b => key b == k) (b :: l) = some b :=
          List.find?_cons_of_pos _ (by simp [hb])
        rw [objGet, e1, e2]
        rfl
      · have e1 : List.find? (fun p : String × α => p.1 == k)
            ((key b, g b) :: List.map (fun b => (key b, g b)) l) =
              List.find? (fun p : String × α => p.1 == k)
                (List.map (fun b => (key b, g b)) l) :=
          List.find?_cons_of_neg _ (by simp [hb])
        have e2 : List.find? (fun b => key b == k) (b :: l) =
            List.find? (fun b => key b == k) l :=
          List.find?_cons_of_neg _ (by simp [hb])
        rw [objGet, e1, e2]
        exact ih

theorem objInsert_map_form {α β : Type} (key : β → String) (g : β → α)
    (l : List β) (k : String) (v : α)
    (hmem : l.any (fun b => key b == k) = true) :
    objInsert k v (l.map (fun b => (key b, g b))) =
      l.map (fun b => (key b, if key b = k then v else g b)) := by
  have hany : (l.map (fun b => (key b, g b))).any (fun p => p.1 == k) = true := by
    rcases List.any_eq_true.mp hmem with ⟨b, hb, hbe⟩
    exact List.any_eq_true.mpr ⟨(key b, g b), List.mem_map.mpr ⟨b, hb, rfl⟩, hbe⟩
  rw [objInsert, if_pos hany, List.map_map]
  refine List.map_congr_left ?_
  intro b _
  by_cases hb : key b = k
  · simp [hb]
  · simp [hb]

theorem accumStats_team (stats : List Stat) (m : List (String × PlayerAcc))
    (t : TeamTotals) :
    (accumStats (m, t) stats).2 =
      (stats.filter (fun s => (objGet s.player_id m).isSome)).foldl
        TeamTotals.addStat t := by
  induction stats generalizing m t with
  | nil => rfl
  | cons s stats ih =>
      cases h : objGet s.player_id m with
      | none =>
          have hstep : accumStats (m, t) (s :: stats) = accumStats (m, t) stats := by
            simp only [accumStats, List.foldl_cons, h]
          have hfil : (s :: stats).filter (fun s => (objGet s.player_id m).isSome) =
              stats.filter (fun s => (objGet s.player_id m).isSome) :=
            List.filter_cons_of_neg (by simp [h])
          rw [hstep, hfil, ih]
      | some acc =>
          have hstep : accumStats (m, t) (s :: stats) =
              accumStats (objInsert s.player_id (acc.addStat s) m, t.addStat s) stats := by
            simp only [accumStats, List.foldl_cons, h]
          have hfil : stats.filter (fun s' =>
              (objGet s'.player_id (objInsert s.player_id (acc.addStat s) m)).isSome) =
              stats.filter (fun s' => (objGet s'.player_id m).isSome) := by
            refine List.filter_congr ?_
            intro s' _
            rw [objGet_objInsert]
            by_cases hid : s'.player_id = s.player_id
            · rw [if_pos hid, hid, h]
              rfl
            · rw [if_neg hid]
          have hfil2 : (s :: stats).filter (fun s => (objGet s.player_id m).isSome) =
              s :: stats.filter (fun s => (objGet s.player_id m).isSome) :=
            List.filter_cons_of_pos (by simp [h])
          rw [hstep, ih, hfil, hfil2, List.foldl_cons]

theorem accumStats_players (stats : List Stat) (players : List Player)
    (hn : (players.map Player.id).Nodup) (g : Player → PlayerAcc) (t : TeamTotals) :
    (accumStats (players.map (fun p => (p.id, g p)), t) stats).1 =
      players.map (fun p =>
        (p.id,
          (stats.filter (fun s => s.player_id == p.id)).foldl PlayerAcc.addStat (g p))) := by
  induction stats generalizing g t with
  | nil => simp [accumStats]
  | cons s stats ih =>
      cases hfind : players.find? (fun p => p.id == s.player_id) with
      | none =>
          have hget : objGet s.player_id (players.map (fun p => (p.id, g p))) = none := by
            rw [objGet_map_form, hfind]
            rfl
          have hstep : accumStats (players.map (fun p => (p.id, g p)), t) (s :: stats) =
              accumStats (players.map (fun p => (p.id, g p)), t) stats := by
            simp only [accumStats, List.foldl_cons, hget]
          rw [hstep, ih g t]
          refine List.map_congr_left ?_
          intro p hp
          have hne : ¬ (s.player_id = p.id) := by
            have h1 := List.find?_eq_none.mp hfind p hp
            simp only [beq_iff_eq] at h1
            exact fun h => h1 h.symm
          have hfil : (s :: stats).filter (fun s' => s'.player_id == p.id) =
              stats.filter (fun s' => s'.player_id == p.id) :=
            List.filter_cons_of_neg (by simp [hne])
          rw [hfil]
      | some p₀ =>
          have hp₀ : p₀.id = s.player_id := by
            have := List.find?_some hfind
            simpa using this
          have hmem₀ := List.mem_of_find?_eq_some hfind
          have hget : objGet s.player_id (players.map (fun p => (p.id, g p))) =
              some (g p₀) := by
            rw [objGet_map_form, hfind]
            rfl
          have hany : players.any (fun p => p.id == s.player_id) = true :=
            List.any_eq_true.mpr ⟨p₀, hmem₀, by simp [hp₀]⟩
          have hstep : accumStats (players.map (fun p => (p.id, g p)), t) (s :: stats) =
              accumStats (objInsert s.player_id ((g p₀).addStat s)
                (players.map (fun p => (p.id, g p))), t.addStat s) stats := by
            simp only [accumStats, List.foldl_cons, hget]
          have hform : objInsert s.player_id ((g p₀).addStat s)
              (players.map (fun p => (p.id, g p))) =
              players.map (fun p =>
                (p.id, if p.id = s.player_id then (g p).addStat s else g p)) := by
            rw [objInsert_map_form (fun p : Player => p.id) g players s.player_id
              ((g p₀).addStat s) hany]
            refine List.map_congr_left ?_
            intro p hp
            by_cases hid : p.id = s.player_id
            · have hpp : p = p₀ :=
                List.inj_on_of_nodup_map hn hp hmem₀ (hid.trans hp₀.symm)
              rw [if_pos hid, if_pos hid, hpp]
            · rw [if_neg hid, if_neg hid]
          rw [hstep, hform,
            ih (fun p => if p.id = s.player_id then (g p).addStat s else g p) (t.addStat s)]
          refine List.map_congr_left ?_
          intro p hp
          by_cases hid : s.player_id = p.id
          · have hfil : (s :: stats).filter (fun s' => s'.player_id == p.id) =
                s :: stats.filter (fun s' => s'.player_id == p.id) :=
              List.filter_cons_of_pos (by simp [hid])
            rw [hfil, List.foldl_cons, if_pos hid.symm]
          · have hfil : (s :: stats).filter (fun s' => s'.player_id == p.id) =
                stats.filter (fun s' => s'.player_id == p.id) :=
              List.filter_cons_of_neg (by simp [hid])
            rw [hfil, if_neg (fun h => hid h.symm)]

theorem isSome_objGet_initPlayerStats (players : List Player) (k : String) :
    (objGet k (initPlayerStats players)).isSome = players.any (fun p => p.id == k) := by
  have h1 : (objGet k (initPlayerStats players)).isSome = true ↔
      players.any (fun p => p.id == k) = true := by
    rw [objGet_isSome_iff, initPlayerStats_eq_objInsertAll, mem_objKeys_objInsertAll]
    simp [List.any_eq_true, objKeys]
  cases hb : players.any (fun p => p.id == k) with
  | true => exact h1.mpr hb
  | false =>
      cases hs : (objGet k (initPlayerStats players)).isSome with
      | false => rfl
      | true =>
          have h2 := h1.mp hs
          rw [hb] at h2
          exact (Bool.false_ne_true h2).elim

/-- Closed form of the max-guarded denominator `events.length || 1`. -/
theorem guard_denominator (n : Nat) : (if n = 0 then 1 else n) = max 1 n := by
  cases n with
  | zero => rfl
  | succ n => simp [Nat.succ_le_succ (Nat.zero_le n)]

theorem teamAverage_characterization (players : List Player) (stats : List Stat)
    (events : List Event) :
    (calculateAverages players stats events).2 =
      { points := roundTenth ((sumPoints (stats.filter (fun s =>
            players.any (fun p => p.id == s.player_id))) : ℚ) / (max 1 events.length))
        rebounds := roundTenth ((sumRebounds (stats.filter (fun s =>
            players.any (fun p => p.id == s.player_id))) : ℚ) / (max 1 events.length))
        assists := roundTenth ((sumAssists (stats.filter (fun s =>
            players.any (fun p => p.id == s.player_id))) : ℚ) / (max 1 events.length))
        steals := roundTenth ((sumSteals (stats.filter (fun s =>
            players.any (fun p => p.id == s.player_id))) : ℚ) / (max 1 events.length))
        blocks := roundTenth ((sumBlocks (stats.filter (fun s =>
            players.any (fun p => p.id == s.player_id))) : ℚ) / (max 1 events.length))
        games := max 1 events.length } := by
  have hfil : stats.filter (fun s => (objGet s.player_id (initPlayerStats players)).isSome) =
      stats.filter (fun s => players.any (fun p => p.id == s.player_id)) := by
    refine List.filter_congr ?_
    intro s _
    rw [isSome_objGet_initPlayerStats]
  have htt := accumStats_team stats (initPlayerStats players) TeamTotals.zero
  rw [hfil, foldl_addStat_team] at htt
  simp only [calculateAverages, guard_denominator]
  rw [htt]
  simp [TeamTotals.zero]

/-- C4 (corrected): the team totals accumulated by `calculateAverages` cover
exactly the statistic records whose `player_id` appears among the players
collection — records referencing an unknown player are skipped (the team
accumulation sits inside the `if (playerStats[playerId])` guard), so each
team average is the rounded quotient of the filtered field sum by the
max-guarded game count. -/
theorem computeTeamAverages_known_players_only (players : List Player)
    (stats : List Stat) (events : List Event) :
    (calculateAverages players stats events).2 =
      { points := roundTenth ((sumPoints (stats.filter (fun s =>
            players.any (fun p => p.id == s.player_id))) : ℚ) / (max 1 events.length))
        rebounds := roundTenth ((sumRebounds (stats.filter (fun s =>
            players.any (fun p => p.id == s.player_id))) : ℚ) / (max 1 events.length))
        assists := roundTenth ((sumAssists (stats.filter (fun s =>
            players.any (fun p => p.id == s.player_id))) : ℚ) / (max 1 events.length))
        steals := roundTenth ((sumSteals (stats.filter (fun s =>
            players.any (fun p => p.id == s.player_id))) : ℚ) / (max 1 events.length))
        blocks := roundTenth ((sumBlocks (stats.filter (fun s =>
            players.any (fun p => p.id == s.player_id))) : ℚ) / (max 1 events.length))
        games := max 1 events.length } :=
  teamAverage_characterization players stats events

/-- Counterexample to C4 as stated: a statistic record whose `player_id`
references no player of the players collection is not accumulated — with one
such record carrying 7 points and one game event, the team points average is
0, not 7 (the sum over all records of the collection). -/
theorem computeTeamAverages_unknown_player_counterexample :
    (calculateAverages []
      [{ player_id := "ghost", event_id := "e1", points := some 7,
         rebounds := some 0, assists := some 0, steals := some 0, blocks := some 0 }]
      [{ id := "e1", title := "G1", date := "d1" }]).2.points = 0 ∧
    sumPoints
      [{ player_id := "ghost", event_id := "e1", points := some 7,
         rebounds := some 0, assists := some 0, steals := some 0, blocks := some 0 }] = 7 ∧
    (0 : ℚ) ≠ roundTenth ((7 : ℚ) / max 1 1) := by
  refine ⟨?_, by norm_num [sumPoints], ?_⟩
  · norm_num +decide [calculateAverages, accumStats, initPlayerStats, objGet, objInsert,
      TeamTotals.zero, TeamTotals.addStat, PlayerAcc.initFor, PlayerAcc.addStat, roundTenth]
  · rw [roundTenth]
    norm_num

/-- C1 (amended): when every statistic row references a player present in
the players collection, each team average equals the rounded quotient of the
field sum over the whole statistic collection by `max 1 g` where `g` is the
number of game events; with `g = 0` the reported denominator is 1 and the
averages are the rounded sums themselves (zero exactly when the sums are
zero). -/
theorem computeTeamAverages_sum_div_games (players : List Player)
    (stats : List Stat) (events : List Event)
    (hclosed : ∀ s ∈ stats, ∃ p ∈ players, p.id = s.player_id) :
    (calculateAverages players stats events).2 =
      { points := roundTenth ((sumPoints stats : ℚ) / (max 1 events.length))
        rebounds := roundTenth ((sumRebounds stats : ℚ) / (max 1 events.length))
        assists := roundTenth ((sumAssists stats : ℚ) / (max 1 events.length))
        steals := roundTenth ((sumSteals stats : ℚ) / (max 1 events.length))
        blocks := roundTenth ((sumBlocks stats : ℚ) / (max 1 events.length))
        games := max 1 events.length } := by
  have hall : stats.filter (fun s => players.any (fun p => p.id == s.player_id)) = stats := by
    rw [List.filter_eq_self]
    intro s hs
    rcases hclosed s hs with ⟨p, hp, hpe⟩
    exact List.any_eq_true.mpr ⟨p, hp, by simp [hpe]⟩
  rw [teamAverage_characterization, hall]

/-- Witness for C1: two game events, one statistic row of a known player
with 10 points; the team points average is 10/2 = 5 and the denominator 2. -/
theorem computeTeamAverages_sum_div_games_witness :
    (calculateAverages [{ id := "p1", name := "A" }]
      [{ player_id := "p1", event_id := "e1", points := some 10,
         rebounds := some 5, assists := some 2, steals := some 1, blocks := some 0 }]
      [{ id := "e1", title := "G1", date := "d1" },
       { id := "e2", title := "G2", date := "d2" }]).2.points = 5 ∧
    (calculateAverages [{ id := "p1", name := "A" }]
      [{ player_id := "p1", event_id := "e1", points := some 10,
         rebounds := some 5, assists := some 2, steals := some 1, blocks := some 0 }]
      [{ id := "e1", title := "G1", date := "d1" },
       { id := "e2", title := "G2", date := "d2" }]).2.games = 2 := by
  have h := computeTeamAverages_sum_div_games [{ id := "p1", name := "A" }]
    [{ player_id := "p1", event_id := "e1", points := some 10,
       rebounds := some 5, assists := some 2, steals := some 1, blocks := some 0 }]
    [{ id := "e1", title := "G1", date := "d1" },
     { id := "e2", title := "G2", date := "d2" }]
    (by
      intro s hs
      rcases List.mem_singleton.mp hs with rfl
      exact ⟨{ id := "p1", name := "A" }, List.mem_singleton.mpr rfl, rfl⟩)
  rw [h]
  constructor
  · show roundTenth ((sumPoints _ : ℚ) / (max 1 2)) = 5
    rw [roundTenth]
    norm_num [sumPoints]
  · rfl

theorem filter_of_map {α β : Type} (f : α → β) (q : β → Bool) (l : List α) :
    (l.map f).filter q = (l.filter (fun a => q (f a))).map f := by
  induction l with
  | nil => rfl
  | cons a l ih =>
      by_cases h : q (f a) = true <;>
        simp [List.filter_cons, h, ih]

/-- The statistic rows of one player, in input order. -/
def playerRows (stats : List Stat) (pid : String) : List Stat :=
  stats.filter (fun s => s.player_id == pid)

/-- C2: `computePlayerAverages` (the per-player half of `calculateAverages`)
keeps exactly the players with at least one matching statistic row, in
players order, and maps each to its name, the five rounded per-row averages
`sum/n`, and `gamesPlayed = n` where `n` is the number of matching rows
(player ids assumed distinct, as they are primary keys of the store). -/
theorem computePlayerAverages_spec (players : List Player) (stats : List Stat)
    (events : List Event) (hn : (players.map Player.id).Nodup) :
    (calculateAverages players stats events).1 =
      (players.filter (fun p => decide (0 < (playerRows stats p.id).length))).map
        (fun p =>
          { name := p.name
            points := roundTenth ((sumPoints (playerRows stats p.id) : ℚ) /
              (playerRows stats p.id).length)
            rebounds := roundTenth ((sumRebounds (playerRows stats p.id) : ℚ) /
              (playerRows stats p.id).length)
            assists := roundTenth ((sumAssists (playerRows stats p.id) : ℚ) /
              (playerRows stats p.id).length)
            steals := roundTenth ((sumSteals (playerRows stats p.id) : ℚ) /
              (playerRows stats p.id).length)
            blocks := roundTenth ((sumBlocks (playerRows stats p.id) : ℚ) /
              (playerRows stats p.id).length)
            gamesPlayed := (playerRows stats p.id).length }) := by
  have hinit : initPlayerStats players =
      players.map (fun p => (p.id, PlayerAcc.initFor p.name)) := by
    rw [initPlayerStats_eq_objInsertAll,
      objInsertAll_eq_append _ _ _ _ hn (by simp [objKeys])]
    simp
  have hacc := accumStats_players stats players hn
    (fun p => PlayerAcc.initFor p.name) TeamTotals.zero
  have hone : (calculateAverages players stats events).1 =
      ((players.map (fun p =>
          (p.id, (playerRows stats p.id).foldl PlayerAcc.addStat
            (PlayerAcc.initFor p.name)))).map
        (fun kv => playerAverageOf kv.2)).filter (fun a => decide (0 < a.gamesPlayed)) := by
    simp only [calculateAverages]
    rw [hinit, hacc]
    rfl
  have hlen : ∀ p : Player,
      (playerAverageOf ((playerRows stats p.id).foldl PlayerAcc.addStat
        (PlayerAcc.initFor p.name))).gamesPlayed = (playerRows stats p.id).length := by
    intro p
    rw [foldl_addStat_player]
    simp [playerAverageOf, PlayerAcc.initFor]
  rw [hone, List.map_map, filter_of_map]
  have hfil : players.filter (fun p => decide (0 <
      (playerAverageOf ((playerRows stats p.id).foldl PlayerAcc.addStat
        (PlayerAcc.initFor p.name))).gamesPlayed)) =
      players.filter (fun p => decide (0 < (playerRows stats p.id).length)) := by
    refine List.filter_congr ?_
    intro p _
    rw [hlen p]
  simp only [Function.comp_apply]
  rw [hfil]
  refine List.map_congr_left ?_
  intro p hp
  have hplen : 0 < (playerRows stats p.id).length := by
    have h1 := (List.mem_filter.mp hp).2
    simpa using h1
  show playerAverageOf ((playerRows stats p.id).foldl PlayerAcc.addStat
    (PlayerAcc.initFor p.name)) = _
  rw [foldl_addStat_player]
  have hne : ¬ ((playerRows stats p.id).length = 0) := Nat.pos_iff_ne_zero.mp hplen
  simp [playerAverageOf, PlayerAcc.initFor, hne]

/-- Witness for C2: the spec's end-to-end example — player A has two rows
(10/5/2/1/0 and 20/3/4/0/1), player B none; the result is the single entry
for A with averages 15 / 4 / 3 / 0.5 / 0.5 and `gamesPlayed = 2`. -/
theorem computePlayerAverages_spec_witness :
    (calculateAverages
      [{ id := "p1", name := "A" }, { id := "p2", name := "B" }]
      [{ player_id := "p1", event_id := "e1", points := some 10,
         rebounds := some 5, assists := some 2, steals := some 1, blocks := some 0 },
       { player_id := "p1", event_id := "e2", points := some 20,
         rebounds := some 3, assists := some 4, steals := some 0, blocks := some 1 }]
      [{ id := "e1", title := "G1", date := "d1" },
       { id := "e2", title := "G2", date := "d2" }]).1 =
      [{ name := "A", points := 15, rebounds := 4, assists := 3,
         steals := 1/2, blocks := 1/2, gamesPlayed := 2 }] := by
  rw [computePlayerAverages_spec
    [{ id := "p1", name := "A" }, { id := "p2", name := "B" }]
    [{ player_id := "p1", event_id := "e1", points := some 10,
       rebounds := some 5, assists := some 2, steals := some 1, blocks := some 0 },
     { player_id := "p1", event_id := "e2", points := some 20,
       rebounds := some 3, assists := some 4, steals := some 0, blocks := some 1 }]
    [{ id := "e1", title := "G1", date := "d1" },
     { id := "e2", title := "G2", date := "d2" }]
    (by decide)]
  norm_num +decide [playerRows, sumPoints, sumRebounds, sumAssists, sumSteals,
    sumBlocks, roundTenth]

/-- C6: `getPlayerStats` returns exactly one output line per statistic row
whose `player_id` matches, in the order of the input statistics collection
(it is the projection of the filtered rows, with no internal sorting); each
line carries the five raw counts of its row, and a row whose `event_id`
resolves to no event gets the sentinel title `Match inconnu` and the empty
date instead of failing. -/
theorem getPlayerStats_spec (fd : String → String) (stats : List Stat)
    (events : List Event) (pid : String) :
    getPlayerStats fd stats events pid =
      (stats.filter (fun s => s.player_id == pid)).map (statLine fd events) ∧
    (∀ s : Stat, events.find? (fun e => e.id == s.event_id) = none →
      (statLine fd events s).event = "Match inconnu" ∧
      (statLine fd events s).date = "") ∧
    (∀ s : Stat,
      (statLine fd events s).points = s.points.getD 0 ∧
      (statLine fd events s).rebounds = s.rebounds.getD 0 ∧
      (statLine fd events s).assists = s.assists.getD 0 ∧
      (statLine fd events s).steals = s.steals.getD 0 ∧
      (statLine fd events s).blocks = s.blocks.getD 0) := by
  refine ⟨?_, ?_, ?_⟩
  · simp only [getPlayerStats]
    by_cases h : (stats.filter (fun s => s.player_id == pid)).length = 0
    · rw [if_pos h, List.length_eq_zero.mp h]
      rfl
    · rw [if_neg h]
  · intro s hnone
    simp [statLine, hnone]
  · intro s
    cases h : events.find? (fun e => e.id == s.event_id) with
    | none => simp [statLine, h]
    | some e => simp [statLine, h]

/-- Witness for C6: with an empty events collection every lookup fails, so a
concrete row is rendered with the sentinel title and the empty date. -/
theorem getPlayerStats_spec_witness :
    (statLine id []
      { player_id := "p1", event_id := "e9", points := some 7,
        rebounds := some 6, assists := some 5, steals := some 4,
        blocks := some 3 }).event = "Match inconnu" ∧
    (statLine id []
      { player_id := "p1", event_id := "e9", points := some 7,
        rebounds := some 6, assists := some 5, steals := some 4,
        blocks := some 3 }).date = "" :=
  (getPlayerStats_spec id [] [] "p1").2.1
    { player_id := "p1", event_id := "e9", points := some 7,
      rebounds := some 6, assists := some 5, steals := some 4, blocks := some 3 }
    rfl

/-- Counterexample to C1 as stated: with zero game events and one statistic
row of a known player carrying 10 points, the team points average is 10 (the
sums divided by the guard denominator 1), not zero — so "with zero game
events all five averages are zero" fails. -/
theorem computeTeamAverages_zero_games_counterexample :
    (calculateAverages [{ id := "p1", name := "A" }]
      [{ player_id := "p1", event_id := "e1", points := some 10,
         rebounds := some 0, assists := some 0, steals := some 0, blocks := some 0 }]
      []).2.points = 10 ∧
    (calculateAverages [{ id := "p1", name := "A" }]
      [{ player_id := "p1", event_id := "e1", points := some 10,
         rebounds := some 0, assists := some 0, steals := some 0, blocks := some 0 }]
      []).2.games = 1 ∧
    (10 : ℚ) ≠ 0 := by
  refine ⟨?_, ?_, by norm_num⟩
  · norm_num +decide [calculateAverages, accumStats, initPlayerStats, objGet, objInsert,
      TeamTotals.zero, TeamTotals.addStat, PlayerAcc.initFor, PlayerAcc.addStat, roundTenth]
  · rfl

/-- Validated values of the game form: title, date (ISO conversion kept
abstract as a string), optional text fields as possibly-empty strings,
optional non-negative integer scores. -/
structure GameFormValues where
  title : String
  date : String
  location : String
  opponent : String
  team_score : Option Nat
  opponent_score : Option Nat
deriving DecidableEq, Repr

/-- The `gameData` payload built by `onSubmit`: empty text fields become
null, scores pass through (`?? null`), the result is derived from the
submitted scores, the type is always a game. -/
structure GameData where
  title : String
  date : String
  location : Option String
  opponent : Option String
  team_score : Option Nat
  opponent_score : Option Nat
  result : Option GameResult
  type : String
  user_id : String
deriving DecidableEq, Repr

/-- Construction of `gameData` inside `onSubmit`. -/
def mkGameData (uid : String) (v : GameFormValues) : GameData :=
  { title := v.title
    date := v.date
    location := if v.location = "" then none else some v.location
    opponent := if v.opponent = "" then none else some v.opponent
    team_score := v.team_score
    opponent_score := v.opponent_score
    result := deriveGameResult v.team_score v.opponent_score
    type := "game"
    user_id := uid }

/-- Stored row of the events table: id plus the written payload. -/
structure EventRow where
  id : String
  data : GameData
deriving DecidableEq, Repr

/-- Persistence step of `onSubmit`: when editing, update the row with the
edited game's id; otherwise insert a fresh row.  Both paths write the whole
freshly built `gameData`, result included. -/
def onSubmitStep (uid : String) (editing : Option String) (v : GameFormValues)
    (newId : String) (store : List EventRow) : List EventRow :=
  let gd := mkGameData uid v
  match editing with
  | some eid => store.map (fun r => if r.id == eid then { r with data := gd } else r)
  | none => store ++ [{ id := newId, data := gd }]

theorem deriveGameResult_iff (t o : Nat) :
    (deriveGameResult (some t) (some o) = some GameResult.win ↔ o < t) ∧
    (deriveGameResult (some t) (some o) = some GameResult.loss ↔ t < o) ∧
    (deriveGameResult (some t) (some o) = some GameResult.draw ↔ t = o) := by
  rcases Nat.lt_trichotomy t o with h | h | h
  · rw [deriveGameResult_of_loss t o h]
    refine ⟨by simp; omega, by simp [h], by simp; omega⟩
  · rw [deriveGameResult_of_draw t o h]
    refine ⟨by simp; omega, by simp; omega, by simp [h]⟩
  · rw [deriveGameResult_of_win t o h]
    refine ⟨by simp [h], by simp; omega, by simp; omega⟩

/-- C8: both write paths of the game form persist the freshly derived
result.  The built payload keeps the submitted scores and its result is
consistent with them (`win` iff team > opponent, `loss` iff team <
opponent, `draw` iff equal, null when either is unset); the update path
writes it into every row carrying the edited id and leaves other rows
untouched, the insert path appends it — so no score-affecting write leaves
a stale result. -/
theorem onSubmit_persists_consistent_result (uid : String)
    (editing : Option String) (v : GameFormValues) (newId : String)
    (store : List EventRow) :
    (mkGameData uid v).team_score = v.team_score ∧
    (mkGameData uid v).opponent_score = v.opponent_score ∧
    (mkGameData uid v).result = deriveGameResult v.team_score v.opponent_score ∧
    (∀ t o : Nat, v.team_score = some t → v.opponent_score = some o →
      (((mkGameData uid v).result = some GameResult.win ↔ o < t) ∧
       ((mkGameData uid v).result = some GameResult.loss ↔ t < o) ∧
       ((mkGameData uid v).result = some GameResult.draw ↔ t = o))) ∧
    ((v.team_score = none ∨ v.opponent_score = none) →
      (mkGameData uid v).result = none) ∧
    (∀ eid, editing = some eid →
      ∀ r ∈ onSubmitStep uid editing v newId store,
        (r.id = eid → r.data = mkGameData uid v) ∧ (r.id ≠ eid → r ∈ store)) ∧
    (editing = none →
      onSubmitStep uid editing v newId store =
        store ++ [{ id := newId, data := mkGameData uid v }]) := by
  refine ⟨rfl, rfl, rfl, ?_, ?_, ?_, ?_⟩
  · intro t o ht ho
    have hres : (mkGameData uid v).result = deriveGameResult (some t) (some o) := by
      show deriveGameResult v.team_score v.opponent_score = _
      rw [ht, ho]
    rw [hres]
    exact deriveGameResult_iff t o
  · intro h
    show deriveGameResult v.team_score v.opponent_score = none
    rcases h with h | h
    · rw [h]
      rfl
    · rw [h]
      cases v.team_score <;> rfl
  · rintro eid rfl r hr
    simp only [onSubmitStep] at hr
    rcases List.mem_map.mp hr with ⟨r₀, hr₀, hre⟩
    by_cases hid : r₀.id = eid
    · refine ⟨fun _ => ?_, fun hne => ?_⟩
      · rw [← hre, if_pos (by simp [hid])]
      · rw [← hre, if_pos (by simp [hid])] at hne
        exact absurd hid hne
    · refine ⟨fun heq => ?_, fun _ => ?_⟩
      · rw [← hre, if_neg (by simp [hid])] at heq
        exact absurd heq hid
      · rw [← hre, if_neg (by simp [hid])]
        exact hr₀
  · rintro rfl
    rfl

/-- Witness for C8: submitting scores 3–1 yields a persisted `win` result,
and the insert path appends exactly the built payload. -/
theorem onSubmit_persists_consistent_result_witness :
    (mkGameData "u"
      { title := "t", date := "d", location := "", opponent := "",
        team_score := some 3, opponent_score := some 1 }).result =
      some GameResult.win ∧
    onSubmitStep "u" none
      { title := "t", date := "d", location := "", opponent := "",
        team_score := some 3, opponent_score := some 1 } "n" [] =
      [{ id := "n",
         data := mkGameData "u"
           { title := "t", date := "d", location := "", opponent := "",
             team_score := some 3, opponent_score := some 1 } }] :=
  ⟨((onSubmit_persists_consistent_result "u" none
      { title := "t", date := "d", location := "", opponent := "",
        team_score := some 3, opponent_score := some 1 } "n" []).2.2.2.1
      3 1 rfl rfl).1.mpr (by decide),
   (onSubmit_persists_consistent_result "u" none
      { title := "t", date := "d", location := "", opponent := "",
        team_score := some 3, opponent_score := some 1 } "n" []).2.2.2.2.2.2 rfl⟩

/-- Stored row of the statistics table. -/
structure StatRow where
  id : String
  event_id : String
  player_id : String
  user_id : String
  points : Nat
  rebounds : Nat
  assists : Nat
  steals : Nat
  blocks : Nat
deriving DecidableEq, Repr

/-- Stored row of the attendance table. -/
structure AttendanceRow where
  id : String
  event_id : String
  player_id : String
  user_id : String
  present : Bool
deriving DecidableEq, Repr

/-- Store snapshot touched by `deletePlayer` (players, events, statistics,
attendance). -/
structure Db where
  players : List Player
  events : List EventRow
  statistics : List StatRow
  attendance : List AttendanceRow
deriving Repr

/-- `deletePlayer` from the Players page: delete the player's statistics
(by `player_id`), then the player's attendance (by `player_id`), then the
player row itself (by id); events are not touched. -/
def deletePlayer (pid : String) (db : Db) : Db :=
  { db with
    statistics := db.statistics.filter (fun r => !(r.player_id == pid))
    attendance := db.attendance.filter (fun r => !(r.player_id == pid))
    players := db.players.filter (fun p => !(p.id == pid)) }

/-- C9: after deleting player `p`, no statistic or attendance record
referencing `p` remains; every statistic, attendance and player record not
referencing `p` survives; nothing new appears; and the events collection is
unchanged. -/
theorem deletePlayer_spec (pid : String) (db : Db) :
    (∀ r ∈ (deletePlayer pid db).statistics, r.player_id ≠ pid) ∧
    (∀ r ∈ (deletePlayer pid db).attendance, r.player_id ≠ pid) ∧
    (∀ r ∈ db.statistics, r.player_id ≠ pid → r ∈ (deletePlayer pid db).statistics) ∧
    (∀ r ∈ db.attendance, r.player_id ≠ pid → r ∈ (deletePlayer pid db).attendance) ∧
    (∀ p ∈ db.players, p.id ≠ pid → p ∈ (deletePlayer pid db).players) ∧
    (∀ r ∈ (deletePlayer pid db).statistics, r ∈ db.statistics) ∧
    (∀ r ∈ (deletePlayer pid db).attendance, r ∈ db.attendance) ∧
    (deletePlayer pid db).events = db.events := by
  have hs : (deletePlayer pid db).statistics =
      db.statistics.filter (fun r => !(r.player_id == pid)) := rfl
  have ha : (deletePlayer pid db).attendance =
      db.attendance.filter (fun r => !(r.player_id == pid)) := rfl
  have hp : (deletePlayer pid db).players =
      db.players.filter (fun p => !(p.id == pid)) := rfl
  refine ⟨?_, ?_, ?_, ?_, ?_, ?_, ?_, rfl⟩
  · intro r hr
    rw [hs] at hr
    have h2 := (List.mem_filter.mp hr).2
    simpa using h2
  · intro r hr
    rw [ha] at hr
    have h2 := (List.mem_filter.mp hr).2
    simpa using h2
  · intro r hr hne
    rw [hs]
    exact List.mem_filter.mpr ⟨hr, by simpa using hne⟩
  · intro r hr hne
    rw [ha]
    exact List.mem_filter.mpr ⟨hr, by simpa using hne⟩
  · intro p hpmem hne
    rw [hp]
    exact List.mem_filter.mpr ⟨hpmem, by simpa using hne⟩
  · intro r hr
    rw [hs] at hr
    exact (List.mem_filter.mp hr).1
  · intro r hr
    rw [ha] at hr
    exact (List.mem_filter.mp hr).1

/-- Witness for C9: deleting `p1` from a two-player store keeps `p2`'s
statistic row and removes `p1`'s rows. -/
theorem deletePlayer_spec_witness :
    ({ id := "s2", event_id := "e1", player_id := "p2", user_id := "u",
       points := 4, rebounds := 3, assists := 2, steals := 1, blocks := 0 } : StatRow) ∈
      (deletePlayer "p1"
        { players := [{ id := "p1", name := "A" }, { id := "p2", name := "B" }]
          events := []
          statistics :=
            [{ id := "s1", event_id := "e1", player_id := "p1", user_id := "u",
               points := 9, rebounds := 0, assists := 0, steals := 0, blocks := 0 },
             { id := "s2", event_id := "e1", player_id := "p2", user_id := "u",
               points := 4, rebounds := 3, assists := 2, steals := 1, blocks := 0 }]
          attendance := [] }).statistics :=
  (deletePlayer_spec "p1"
    { players := [{ id := "p1", name := "A" }, { id := "p2", name := "B" }]
      events := []
      statistics :=
        [{ id := "s1", event_id := "e1", player_id := "p1", user_id := "u",
           points := 9, rebounds := 0, assists := 0, steals := 0, blocks := 0 },
         { id := "s2", event_id := "e1", player_id := "p2", user_id := "u",
           points := 4, rebounds := 3, assists := 2, steals := 1, blocks := 0 }]
      attendance := [] }).2.2.1
    { id := "s2", event_id := "e1", player_id := "p2", user_id := "u",
      points := 4, rebounds := 3, assists := 2, steals := 1, blocks := 0 }
    (by simp) (by simp)

/-- One iteration of `saveAttendance`: look the (event, player, owner)
triple up in the current store (`maybeSingle`, faithful under the at-most-
one invariant), then update the found row's presence flag by id, or insert
a fresh row. -/
def saveAttendanceStep (uid eid freshId pid : String) (pres : Bool)
    (store : List AttendanceRow) : List AttendanceRow :=
  match store.find? (fun r =>
      r.event_id == eid && r.player_id == pid && r.user_id == uid) with
  | some ex =>
      store.map (fun r => if r.id == ex.id then { r with present := pres } else r)
  | none =>
      store ++ [⟨freshId, eid, pid, uid, pres⟩]

/-- `saveAttendance`: iterate the keys of the form's attendance object in
order; `fresh` supplies the store-generated ids of inserted rows. -/
def saveAttendance (uid eid : String) (fresh : Nat → String)
    (entries : List (String × Bool)) (store : List AttendanceRow) :
    List AttendanceRow :=
  (entries.foldl
    (fun st e => (saveAttendanceStep uid eid (fresh st.2) e.1 e.2 st.1, st.2 + 1))
    (store, 0)).1

/-- Number of attendance rows for one (event, player, owner) triple. -/
def attTriple (eid pid uid : String) (store : List AttendanceRow) : Nat :=
  (store.filter (fun r =>
    r.event_id == eid && r.player_id == pid && r.user_id == uid)).length

/-- The attendance uniqueness invariant: at most one row per triple. -/
def attAtMostOne (store : List AttendanceRow) : Prop :=
  ∀ eid pid uid, attTriple eid pid uid store ≤ 1

theorem attTriple_map_of_preserves (eid pid uid : String)
    (f : AttendanceRow → AttendanceRow)
    (hf : ∀ r, (f r).event_id = r.event_id ∧ (f r).player_id = r.player_id ∧
      (f r).user_id = r.user_id)
    (store : List AttendanceRow) :
    attTriple eid pid uid (store.map f) = attTriple eid pid uid store := by
  rw [attTriple, attTriple, filter_of_map, List.length_map]
  congr 1
  refine List.filter_congr ?_
  intro r _
  rw [(hf r).1, (hf r).2.1, (hf r).2.2]

theorem attTriple_append_single (eid pid uid : String)
    (row : AttendanceRow) (store : List AttendanceRow) :
    attTriple eid pid uid (store ++ [row]) =
      attTriple eid pid uid store +
        (if row.event_id == eid && row.player_id == pid && row.user_id == uid
          then 1 else 0) := by
  rw [attTriple, attTriple, List.filter_append, List.length_append]
  congr 1
  by_cases h : (row.event_id == eid && row.player_id == pid && row.user_id == uid) = true
  · rw [if_pos h]
    simp [List.filter_cons, h]
  · rw [if_neg h]
    simp [List.filter_cons, h]

theorem attAtMostOne_step (uid eid freshId pid : String) (pres : Bool)
    (store : List AttendanceRow) (h : attAtMostOne store) :
    attAtMostOne (saveAttendanceStep uid eid freshId pid pres store) := by
  intro e p u
  cases hfind : store.find? (fun r =>
      r.event_id == eid && r.player_id == pid && r.user_id == uid) with
  | some ex =>
      have hstep : saveAttendanceStep uid eid freshId pid pres store =
          store.map (fun r => if r.id == ex.id then { r with present := pres } else r) := by
        rw [saveAttendanceStep, hfind]
      rw [hstep, attTriple_map_of_preserves]
      · exact h e p u
      · intro r
        by_cases hid : r.id = ex.id <;> simp [hid]
  | none =>
      have hstep : saveAttendanceStep uid eid freshId pid pres store =
          store ++ [⟨freshId, eid, pid, uid, pres⟩] := by
        rw [saveAttendanceStep, hfind]
      rw [hstep, attTriple_append_single]
      by_cases hmatch : (eid == e && pid == p && uid == u) = true
      · have hze : attTriple e p u store = 0 := by
          rw [attTriple]
          have hnil : store.filter (fun r =>
              r.event_id == e && r.player_id == p && r.user_id == u) = [] := by
            rw [List.filter_eq_nil_iff]
            intro r hr
            intro hpr
            have hfn := List.find?_eq_none.mp hfind r hr
            simp only [Bool.and_eq_true, beq_iff_eq] at hmatch hpr
            exact hfn (by
              simp only [Bool.and_eq_true, beq_iff_eq]
              exact ⟨⟨hpr.1.1.trans hmatch.1.1.symm, hpr.1.2.trans hmatch.1.2.symm⟩,
                hpr.2.trans hmatch.2.symm⟩)
          rw [hnil]
          rfl
        rw [hze]
        split <;> simp
      · have hrow : ((⟨freshId, eid, pid, uid, pres⟩ : AttendanceRow).event_id == e &&
            (⟨freshId, eid, pid, uid, pres⟩ : AttendanceRow).player_id == p &&
            (⟨freshId, eid, pid, uid, pres⟩ : AttendanceRow).user_id == u) = false := by
          simp only [Bool.and_eq_true, beq_iff_eq] at hmatch ⊢
          simpa using hmatch
        rw [hrow]
        simpa using h e p u

theorem attAtMostOne_saveAttendance (uid eid : String) (fresh : Nat → String)
    (entries : List (String × Bool)) (store : List AttendanceRow)
    (h : attAtMostOne store) :
    attAtMostOne (saveAttendance uid eid fresh entries store) := by
  suffices H : ∀ (es : List (String × Bool)) (st : List AttendanceRow × Nat),
      attAtMostOne st.1 →
      attAtMostOne ((es.foldl
        (fun st e => (saveAttendanceStep uid eid (fresh st.2) e.1 e.2 st.1, st.2 + 1))
        st).1) by
    exact H entries (store, 0) h
  intro es
  induction es with
  | nil => exact fun st hst => hst
  | cons e es ih =>
      intro st hst
      exact ih _ (attAtMostOne_step uid eid (fresh st.2) e.1 e.2 st.1 hst)

/-- Form state for one player's statistics (`PlayerStat`): the optional id
of an already-stored row, references, and the five counts. -/
structure PlayerStat where
  id : Option String
  player_id : String
  event_id : String
  points : Nat
  rebounds : Nat
  assists : Nat
  steals : Nat
  blocks : Nat
deriving DecidableEq, Repr

/-- The initialisation loop of `PlayerStatsForm.loadData`: the statistics
already stored for this event and owner are loaded (`statsData`); each
roster player then gets their existing row if one is found, otherwise a
zero-count entry carrying no row id. -/
def initialStatsFor (uid gameId : String) (players : List Player)
    (store : List StatRow) : List (String × PlayerStat) :=
  let statsData := store.filter (fun r => r.event_id == gameId && r.user_id == uid)
  objInsertAll (fun p => p.id)
    (fun p =>
      match statsData.find? (fun r => r.player_id == p.id) with
      | some ex =>
          { id := some ex.id
            player_id := ex.player_id
            event_id := ex.event_id
            points := ex.points
            rebounds := ex.rebounds
            assists := ex.assists
            steals := ex.steals
            blocks := ex.blocks }
      | none =>
          { id := none
            player_id := p.id
            event_id := gameId
            points := 0
            rebounds := 0
            assists := 0
            steals := 0
            blocks := 0 })
    players []

/-- One iteration of `saveAllStats`: entries carrying a row id update that
row's counts; entries without one insert a new row for (player, event,
owner). -/
def saveStatStep (uid gameId freshId pid : String) (ps : PlayerStat)
    (store : List StatRow) : List StatRow :=
  match ps.id with
  | some rid =>
      store.map (fun r =>
        if r.id == rid then
          { r with
              points := ps.points
              rebounds := ps.rebounds
              assists := ps.assists
              steals := ps.steals
              blocks := ps.blocks }
        else r)
  | none =>
      store ++ [⟨freshId, gameId, pid, uid, ps.points, ps.rebounds, ps.assists,
        ps.steals, ps.blocks⟩]

/-- `saveAllStats`: iterate the keys of the form's state object in order;
`fresh` supplies the store-generated ids of inserted rows. -/
def saveAllStats (uid gameId : String) (fresh : Nat → String)
    (entries : List (String × PlayerStat)) (store : List StatRow) :
    List StatRow :=
  (entries.foldl
    (fun st e => (saveStatStep uid gameId (fresh st.2) e.1 e.2 st.1, st.2 + 1))
    (store, 0)).1

/-- Number of statistic rows for one (event, player, owner) triple. -/
def statTriple (eid pid uid : String) (store : List StatRow) : Nat :=
  (store.filter (fun r =>
    r.event_id == eid && r.player_id == pid && r.user_id == uid)).length

/-- The statistics uniqueness invariant: at most one row per triple. -/
def statAtMostOne (store : List StatRow) : Prop :=
  ∀ eid pid uid, statTriple eid pid uid store ≤ 1

theorem statTriple_map_of_preserves (eid pid uid : String)
    (f : StatRow → StatRow)
    (hf : ∀ r, (f r).event_id = r.event_id ∧ (f r).player_id = r.player_id ∧
      (f r).user_id = r.user_id)
    (store : List StatRow) :
    statTriple eid pid uid (store.map f) = statTriple eid pid uid store := by
  rw [statTriple, statTriple, filter_of_map, List.length_map]
  congr 1
  refine List.filter_congr ?_
  intro r _
  rw [(hf r).1, (hf r).2.1, (hf r).2.2]

theorem statTriple_append_single (eid pid uid : String)
    (row : StatRow) (store : List StatRow) :
    statTriple eid pid uid (store ++ [row]) =
      statTriple eid pid uid store +
        (if row.event_id == eid && row.player_id == pid && row.user_id == uid
          then 1 else 0) := by
  rw [statTriple, statTriple, List.filter_append, List.length_append]
  congr 1
  by_cases h : (row.event_id == eid && row.player_id == pid && row.user_id == uid) = true
  · rw [if_pos h]
    simp [List.filter_cons, h]
  · rw [if_neg h]
    simp [List.filter_cons, h]

theorem statTriple_saveStatStep_update (uid gameId freshId pid : String)
    (ps : PlayerStat) (rid : String) (hid : ps.id = some rid)
    (store : List StatRow) (e p u : String) :
    statTriple e p u (saveStatStep uid gameId freshId pid ps store) =
      statTriple e p u store := by
  have hstep : saveStatStep uid gameId freshId pid ps store =
      store.map (fun r =>
        if r.id == rid then
          { r with
              points := ps.points
              rebounds := ps.rebounds
              assists := ps.assists
              steals := ps.steals
              blocks := ps.blocks }
        else r) := by
    rw [saveStatStep, hid]
  rw [hstep, statTriple_map_of_preserves]
  intro r
  by_cases h : r.id = rid <;> simp [h]

theorem statTriple_saveStatStep_insert (uid gameId freshId pid : String)
    (ps : PlayerStat) (hid : ps.id = none)
    (store : List StatRow) (e p u : String) :
    statTriple e p u (saveStatStep uid gameId freshId pid ps store) =
      statTriple e p u store +
        (if gameId == e && pid == p && uid == u then 1 else 0) := by
  have hstep : saveStatStep uid gameId freshId pid ps store =
      store ++ [⟨freshId, gameId, pid, uid, ps.points, ps.rebounds, ps.assists,
        ps.steals, ps.blocks⟩] := by
    rw [saveStatStep, hid]
  rw [hstep, statTriple_append_single]

theorem initialStatsFor_keys_nodup (uid gameId : String) (players : List Player)
    (store : List StatRow) :
    (objKeys (initialStatsFor uid gameId players store)).Nodup :=
  objKeys_nodup_objInsertAll _ _ players [] List.nodup_nil

theorem initialStatsFor_mem_key (uid gameId : String) (players : List Player)
    (store : List StatRow) (p : Player) (hp : p ∈ players) :
    p.id ∈ objKeys (initialStatsFor uid gameId players store) :=
  (mem_objKeys_objInsertAll _ _ players [] p.id).mpr (Or.inr ⟨p, hp, rfl⟩)

theorem initialStatsFor_values (uid gameId : String) (players : List Player)
    (store : List StatRow) (k : String) (ps : PlayerStat)
    (hmem : (k, ps) ∈ initialStatsFor uid gameId players store) :
    (ps.id = none →
      ps = ⟨none, k, gameId, 0, 0, 0, 0, 0⟩ ∧
      (store.filter (fun r => r.event_id == gameId && r.user_id == uid)).find?
        (fun r => r.player_id == k) = none) ∧
    (∀ rid, ps.id = some rid → ∃ ex ∈ store,
      ex.player_id = k ∧ ex.event_id = gameId ∧ ex.user_id = uid) := by
  have h := mem_objInsertAll _ _ players [] hmem
  rcases h with h | ⟨p, hp, hkey, hval⟩
  · cases h
  · subst hkey
    cases hfind : (store.filter (fun r =>
        r.event_id == gameId && r.user_id == uid)).find?
        (fun r => r.player_id == p.id) with
    | some ex =>
        have hval' : ps = ⟨some ex.id, ex.player_id, ex.event_id, ex.points,
            ex.rebounds, ex.assists, ex.steals, ex.blocks⟩ := by
          rw [hval]
          simp only [hfind]
        constructor
        · intro h0
          rw [hval'] at h0
          cases h0
        · intro rid _
          have hexmem := List.mem_of_find?_eq_some hfind
          have hexpred := List.find?_some hfind
          rw [List.mem_filter] at hexmem
          obtain ⟨hex_store, hexcond⟩ := hexmem
          simp only [Bool.and_eq_true, beq_iff_eq] at hexcond hexpred
          exact ⟨ex, hex_store, hexpred, hexcond.1, hexcond.2⟩
    | none =>
        have hval' : ps = ⟨none, p.id, gameId, 0, 0, 0, 0, 0⟩ := by
          rw [hval]
          simp only [hfind]
        constructor
        · intro _
          exact ⟨hval', rfl⟩
        · intro rid hrid
          rw [hval'] at hrid
          cases hrid

theorem statTriple_eq_nested_filter (gameId k uid : String)
    (store : List StatRow) :
    statTriple gameId k uid store =
      ((store.filter (fun r => r.event_id == gameId && r.user_id == uid)).filter
        (fun r => r.player_id == k)).length := by
  rw [statTriple, List.filter_filter]
  congr 1
  refine List.filter_congr ?_
  intro r _
  cases h1 : (r.event_id == gameId) <;> cases h2 : (r.player_id == k) <;>
    cases h3 : (r.user_id == uid) <;> rfl

theorem statTriple_zero_of_find_none (uid gameId k : String)
    (store : List StatRow)
    (h : (store.filter (fun r => r.event_id == gameId && r.user_id == uid)).find?
      (fun r => r.player_id == k) = none) :
    statTriple gameId k uid store = 0 := by
  rw [statTriple_eq_nested_filter]
  have hnil : (store.filter (fun r =>
      r.event_id == gameId && r.user_id == uid)).filter
      (fun r => r.player_id == k) = [] := by
    rw [List.filter_eq_nil_iff]
    exact List.find?_eq_none.mp h
  rw [hnil]
  rfl

theorem statAtMostOne_saveAllStats_fold (uid gameId : String)
    (fresh : Nat → String) :
    ∀ (entries : List (String × PlayerStat)) (st : List StatRow × Nat),
      statAtMostOne st.1 →
      (entries.map Prod.fst).Nodup →
      (∀ kps ∈ entries, kps.2.id = none → statTriple gameId kps.1 uid st.1 = 0) →
      statAtMostOne ((entries.foldl
        (fun st e => (saveStatStep uid gameId (fresh st.2) e.1 e.2 st.1, st.2 + 1))
        st).1) := by
  intro entries
  induction entries with
  | nil => exact fun st h _ _ => h
  | cons e entries ih =>
      intro st hinv hnd h0
      rw [List.map_cons] at hnd
      cases hide : e.2.id with
      | some rid =>
          refine ih _ ?_ (List.nodup_cons.mp hnd).2 ?_
          · intro a b c
            have hupd := statTriple_saveStatStep_update uid gameId (fresh st.2)
              e.1 e.2 rid hide st.1 a b c
            rw [show ((fun st (e : String × PlayerStat) =>
                (saveStatStep uid gameId (fresh st.2) e.1 e.2 st.1, st.2 + 1)) st e).1 =
              saveStatStep uid gameId (fresh st.2) e.1 e.2 st.1 from rfl, hupd]
            exact hinv a b c
          · intro kps hk hknone
            have hupd := statTriple_saveStatStep_update uid gameId (fresh st.2)
              e.1 e.2 rid hide st.1 gameId kps.1 uid
            rw [show ((fun st (e : String × PlayerStat) =>
                (saveStatStep uid gameId (fresh st.2) e.1 e.2 st.1, st.2 + 1)) st e).1 =
              saveStatStep uid gameId (fresh st.2) e.1 e.2 st.1 from rfl, hupd]
            exact h0 kps (List.mem_cons_of_mem e hk) hknone
      | none =>
          have h0e := h0 e (List.mem_cons_self e entries) hide
          refine ih _ ?_ (List.nodup_cons.mp hnd).2 ?_
          · intro a b c
            have hins := statTriple_saveStatStep_insert uid gameId (fresh st.2)
              e.1 e.2 hide st.1 a b c
            rw [show ((fun st (e : String × PlayerStat) =>
                (saveStatStep uid gameId (fresh st.2) e.1 e.2 st.1, st.2 + 1)) st e).1 =
              saveStatStep uid gameId (fresh st.2) e.1 e.2 st.1 from rfl, hins]
            by_cases hm : (gameId == a && e.1 == b && uid == c) = true
            · rw [if_pos hm]
              simp only [Bool.and_eq_true, beq_iff_eq] at hm
              obtain ⟨⟨hm1, hm2⟩, hm3⟩ := hm
              subst hm1
              subst hm2
              subst hm3
              rw [h0e]
            · rw [if_neg hm]
              simpa using hinv a b c
          · intro kps hk hknone
            have hins := statTriple_saveStatStep_insert uid gameId (fresh st.2)
              e.1 e.2 hide st.1 gameId kps.1 uid
            have hne : ¬ (e.1 = kps.1) := by
              intro hcontra
              exact (List.nodup_cons.mp hnd).1
                (hcontra ▸ List.mem_map.mpr ⟨kps, hk, rfl⟩)
            have hcond : (gameId == gameId && e.1 == kps.1 && uid == uid) = false := by
              simp [hne]
            rw [show ((fun st (e : String × PlayerStat) =>
                (saveStatStep uid gameId (fresh st.2) e.1 e.2 st.1, st.2 + 1)) st e).1 =
              saveStatStep uid gameId (fresh st.2) e.1 e.2 st.1 from rfl, hins, hcond]
            simpa using h0 kps (List.mem_cons_of_mem e hk) hknone

theorem saveStatStep_row_preserved (uid gameId freshId pid : String)
    (ps : PlayerStat) (store : List StatRow) (r : StatRow) (hr : r ∈ store) :
    ∃ r' ∈ saveStatStep uid gameId freshId pid ps store,
      r'.player_id = r.player_id ∧ r'.event_id = r.event_id ∧
      r'.user_id = r.user_id := by
  cases hid : ps.id with
  | some rid =>
      have hstep : saveStatStep uid gameId freshId pid ps store =
          store.map (fun r =>
            if r.id == rid then
              { r with
                points := ps.points
                rebounds := ps.rebounds
                assists := ps.assists
                steals := ps.steals
                blocks := ps.blocks }
            else r) := by
        rw [saveStatStep, hid]
      rw [hstep]
      refine ⟨_, List.mem_map_of_mem _ hr, ?_⟩
      by_cases h : r.id = rid <;> simp [h]
  | none =>
      have hstep : saveStatStep uid gameId freshId pid ps store =
          store ++ [⟨freshId, gameId, pid, uid, ps.points, ps.rebounds,
            ps.assists, ps.steals, ps.blocks⟩] := by
        rw [saveStatStep, hid]
      rw [hstep]
      exact ⟨r, List.mem_append_left _ hr, rfl, rfl, rfl⟩

theorem saveAllStats_fold_row_preserved (uid gameId : String)
    (fresh : Nat → String) :
    ∀ (entries : List (String × PlayerStat)) (st : List StatRow × Nat)
      (r : StatRow), r ∈ st.1 →
      ∃ r' ∈ (entries.foldl
        (fun st e => (saveStatStep uid gameId (fresh st.2) e.1 e.2 st.1, st.2 + 1))
        st).1,
        r'.player_id = r.player_id ∧ r'.event_id = r.event_id ∧
        r'.user_id = r.user_id := by
  intro entries
  induction entries with
  | nil => exact fun st r hr => ⟨r, hr, rfl, rfl, rfl⟩
  | cons e entries ih =>
      intro st r hr
      obtain ⟨r₁, hr₁, e1, e2, e3⟩ :=
        saveStatStep_row_preserved uid gameId (fresh st.2) e.1 e.2 st.1 r hr
      obtain ⟨r₂, hr₂, f1, f2, f3⟩ :=
        ih (saveStatStep uid gameId (fresh st.2) e.1 e.2 st.1, st.2 + 1) r₁ hr₁
      exact ⟨r₂, hr₂, f1.trans e1, f2.trans e2, f3.trans e3⟩

theorem saveAllStats_fold_covers (uid gameId : String) (fresh : Nat → String) :
    ∀ (entries : List (String × PlayerStat)) (st : List StatRow × Nat),
      (∀ kps ∈ entries, ∀ rid, kps.2.id = some rid →
        ∃ r ∈ st.1, r.player_id = kps.1 ∧ r.event_id = gameId ∧ r.user_id = uid) →
      ∀ kps ∈ entries,
        ∃ r ∈ (entries.foldl
          (fun st e => (saveStatStep uid gameId (fresh st.2) e.1 e.2 st.1, st.2 + 1))
          st).1,
          r.player_id = kps.1 ∧ r.event_id = gameId ∧ r.user_id = uid := by
  intro entries
  induction entries with
  | nil =>
      intro st _ kps hk
      cases hk
  | cons e entries ih =>
      intro st hhyp kps hk
      rcases List.mem_cons.mp hk with rfl | hk'
      · cases hide : kps.2.id with
        | some rid =>
            obtain ⟨r, hr, h1, h2, h3⟩ :=
              hhyp kps (List.mem_cons_self kps entries) rid hide
            obtain ⟨r₁, hr₁, e1, e2, e3⟩ :=
              saveStatStep_row_preserved uid gameId (fresh st.2) kps.1 kps.2 st.1 r hr
            obtain ⟨r₂, hr₂, f1, f2, f3⟩ :=
              saveAllStats_fold_row_preserved uid gameId fresh entries
                (saveStatStep uid gameId (fresh st.2) kps.1 kps.2 st.1, st.2 + 1) r₁ hr₁
            exact ⟨r₂, hr₂, by rw [f1, e1, h1], by rw [f2, e2, h2], by rw [f3, e3, h3]⟩
        | none =>
            have hstep : saveStatStep uid gameId (fresh st.2) kps.1 kps.2 st.1 =
                st.1 ++ [⟨fresh st.2, gameId, kps.1, uid, kps.2.points,
                  kps.2.rebounds, kps.2.assists, kps.2.steals, kps.2.blocks⟩] := by
              rw [saveStatStep, hide]
            have hrow : (⟨fresh st.2, gameId, kps.1, uid, kps.2.points,
                kps.2.rebounds, kps.2.assists, kps.2.steals, kps.2.blocks⟩ : StatRow) ∈
                saveStatStep uid gameId (fresh st.2) kps.1 kps.2 st.1 := by
              rw [hstep]
              exact List.mem_append_right _ (List.mem_singleton.mpr rfl)
            obtain ⟨r₂, hr₂, f1, f2, f3⟩ :=
              saveAllStats_fold_row_preserved uid gameId fresh entries
                (saveStatStep uid gameId (fresh st.2) kps.1 kps.2 st.1, st.2 + 1) _ hrow
            exact ⟨r₂, hr₂, by rw [f1], by rw [f2], by rw [f3]⟩
      · refine ih (saveStatStep uid gameId (fresh st.2) e.1 e.2 st.1, st.2 + 1) ?_ kps hk'
        intro kps' hk'' rid hrid
        obtain ⟨r, hr, h1, h2, h3⟩ :=
          hhyp kps' (List.mem_cons_of_mem e hk'') rid hrid
        obtain ⟨r₁, hr₁, e1, e2, e3⟩ :=
          saveStatStep_row_preserved uid gameId (fresh st.2) e.1 e.2 st.1 r hr
        exact ⟨r₁, hr₁, e1.trans h1, e2.trans h2, e3.trans h3⟩

/-- C7: both upsert-by-lookup write paths preserve the invariant "at most
one record per (event, player, owner) triple" on a sequential run.
`saveAttendance` looks each triple up in the current store and updates the
found row or inserts only when none exists; the statistics path decides
update-versus-insert from the row id captured by the form's load lookup
(`initialStatsFor`), and `saveAllStats` then updates that row or inserts
the missing one. -/
theorem upsert_by_lookup_preserves_uniqueness :
    (∀ (uid eid : String) (fresh : Nat → String)
        (entries : List (String × Bool)) (store : List AttendanceRow),
      attAtMostOne store →
      attAtMostOne (saveAttendance uid eid fresh entries store)) ∧
    (∀ (uid gameId : String) (fresh : Nat → String) (players : List Player)
        (store : List StatRow),
      statAtMostOne store →
      statAtMostOne (saveAllStats uid gameId fresh
        (initialStatsFor uid gameId players store) store)) := by
  constructor
  · exact attAtMostOne_saveAttendance
  · intro uid gameId fresh players store hinv
    refine statAtMostOne_saveAllStats_fold uid gameId fresh
      (initialStatsFor uid gameId players store) (store, 0) hinv
      (initialStatsFor_keys_nodup uid gameId players store) ?_
    intro kps hk hknone
    exact statTriple_zero_of_find_none uid gameId kps.1 store
      ((initialStatsFor_values uid gameId players store kps.1 kps.2 hk).1 hknone).2

/-- Witness for C7: saving one attendance entry into an empty store and
saving the initialised statistics of a one-player roster into an empty
store both leave stores satisfying the at-most-one-per-triple invariant. -/
theorem upsert_by_lookup_preserves_uniqueness_witness :
    attAtMostOne (saveAttendance "u" "e" (fun _ => "a") [("p", true)] []) ∧
    statAtMostOne (saveAllStats "u" "g" (fun _ => "s")
      (initialStatsFor "u" "g" [{ id := "p", name := "A" }] []) []) :=
  ⟨upsert_by_lookup_preserves_uniqueness.1 "u" "e" (fun _ => "a") [("p", true)] []
      (fun e p u => by simp [attTriple]),
   upsert_by_lookup_preserves_uniqueness.2 "u" "g" (fun _ => "s")
      [{ id := "p", name := "A" }] []
      (fun e p u => by simp [statTriple])⟩

/-- C10: the statistics form initialises a zero-count, id-less entry for
every roster player without a stored row for the event, and a single save
writes one row per roster player: afterwards every player of the roster has
exactly one statistics row for this (event, owner) — the row that the
averages computation counts as one game appearance — whether or not their
counts were ever edited. -/
theorem saveAllStats_covers_roster (uid gameId : String) (fresh : Nat → String)
    (players : List Player) (store : List StatRow)
    (hinv : statAtMostOne store) :
    (∀ kps ∈ initialStatsFor uid gameId players store, kps.2.id = none →
      kps.2 = ⟨none, kps.1, gameId, 0, 0, 0, 0, 0⟩) ∧
    (∀ p ∈ players,
      statTriple gameId p.id uid
        (saveAllStats uid gameId fresh
          (initialStatsFor uid gameId players store) store) = 1) := by
  constructor
  · intro kps hk hknone
    exact ((initialStatsFor_values uid gameId players store kps.1 kps.2 hk).1 hknone).1
  · intro p hp
    have hle : statAtMostOne (saveAllStats uid gameId fresh
        (initialStatsFor uid gameId players store) store) := by
      refine statAtMostOne_saveAllStats_fold uid gameId fresh
        (initialStatsFor uid gameId players store) (store, 0) hinv
        (initialStatsFor_keys_nodup uid gameId players store) ?_
      intro kps hk hknone
      exact statTriple_zero_of_find_none uid gameId kps.1 store
        ((initialStatsFor_values uid gameId players store kps.1 kps.2 hk).1 hknone).2
    have hkey : p.id ∈ objKeys (initialStatsFor uid gameId players store) :=
      initialStatsFor_mem_key uid gameId players store p hp
    obtain ⟨q, hq, hqe⟩ := List.mem_map.mp hkey
    have hqmem : (p.id, q.2) ∈ initialStatsFor uid gameId players store := by
      have : q = (p.id, q.2) := by
        rw [← hqe]
      rw [← this]
      exact hq
    obtain ⟨r, hrmem, h1, h2, h3⟩ :=
      saveAllStats_fold_covers uid gameId fresh
        (initialStatsFor uid gameId players store) (store, 0)
        (fun kps hk rid hrid =>
          (initialStatsFor_values uid gameId players store kps.1 kps.2 hk).2 rid hrid)
        (p.id, q.2) hqmem
    have hpos : 0 < statTriple gameId p.id uid
        (saveAllStats uid gameId fresh
          (initialStatsFor uid gameId players store) store) := by
      rw [statTriple]
      refine List.length_pos_of_mem (List.mem_filter.mpr ⟨hrmem, ?_⟩)
      simp [h1, h2, h3]
    have hle1 := hle gameId p.id uid
    omega

/-- Witness for C10: a one-player roster saved into an empty store leaves
exactly one statistics row for the (event, player, owner) triple. -/
theorem saveAllStats_covers_roster_witness :
    statTriple "g" "p" "u"
      (saveAllStats "u" "g" (fun _ => "s")
        (initialStatsFor "u" "g" [{ id := "p", name := "A" }] []) []) = 1 :=
  (saveAllStats_covers_roster "u" "g" (fun _ => "s")
      [{ id := "p", name := "A" }] []
      (fun e p u => by simp [statTriple])).2
    { id := "p", name := "A" } (List.mem_singleton.mpr rfl)

end BasketballStats
